import Mathlib

/-!
Verification of the apartment-distribution engine.

Shallow embedding of the TypeScript source:
  * `src/lib/distributionAlgorithm.ts` — `calculateWorkloadScore`,
    `calculateAgentScores`, `suggestOptimalAgent`, `calculateEquilibreGlobal`,
    `calculateDistanceKm` / `buildAgentRoute`;
  * `src/components/AppartementsList.tsx` — `handleAutoDistribute`.

Modelling conventions:
  * JavaScript numbers are embedded as exact rationals (`ℚ`); all the claims
    below are algebraic facts that do not depend on rounding.
  * A JavaScript `Map` is embedded as an insertion-ordered association list
    `List (String × α)`; `Map.set` overwrites in place or appends, `Map.get`
    returns the first entry for the key.
  * JavaScript truthiness of a nullable string (`appt.agent_id` in the
    source is `string | null`, and the code tests it with `!x` and `x && _`)
    is modelled by `jsTruthyStr`: `null` and the empty string are falsy.
  * The transcendental helpers (`Math.sqrt` inside
    `calculateEquilibreGlobal`, the haversine `calculateDistanceKm` inside
    `buildAgentRoute`) have no exact rational counterpart, so the functions
    that use them take the numeric kernel as an explicit parameter; every
    theorem below holds for an arbitrary choice of that parameter, hence in
    particular for the floating-point implementation of the source.
  * The `while` loop of `buildAgentRoute` removes exactly one element per
    iteration, so it is embedded as a fuel-indexed recursion started with
    fuel equal to the length of the worked list.
  * The shared-object mutation performed by `handleAutoDistribute` through
    the shallow `new Map(scoreMap)` copy is modelled with an explicit heap:
    a `Store` maps cell numbers to summary records and a `ScoreMapRef` maps
    keys to cell numbers, so aliasing between the caller map and the
    call-local copy is represented faithfully.
-/

/-- The `Agent` record of `src/lib/supabase.ts` (fields used by the engine;
`created_at` is never read by the algorithms and is omitted). -/
structure Agent where
  id : String
  nom : String
  email : String
  secteur_preference : Option String
  charge_actuelle : ℚ
deriving DecidableEq

/-- The `Appartement` record of `src/lib/supabase.ts` (timestamp fields are
never read by the algorithms and are omitted). `statut` ranges over the
strings "disponible", "assigne", "inactif". -/
structure Appartement where
  id : String
  nom : String
  adresse : String
  secteur : String
  nombre_chambres : ℚ
  surface : ℚ
  distance_base : ℚ
  latitude : Option ℚ
  longitude : Option ℚ
  difficulte : ℚ
  agent_id : Option String
  statut : String
deriving DecidableEq

/-- The `DistributionScore` record of `src/lib/distributionAlgorithm.ts`.
`nombre_appartements` only ever receives `0` and `+1` in the source, so it
is embedded as a natural number. -/
structure DistributionScore where
  agent_id : String
  total_chambres : ℚ
  total_surface : ℚ
  total_distance : ℚ
  total_difficulte : ℚ
  nombre_appartements : ℕ
  score_equilibre : ℚ
deriving DecidableEq

/-- A latitude/longitude pair (the anonymous `{latitude, longitude}` object
of the source). -/
structure Point where
  latitude : ℚ
  longitude : ℚ
deriving DecidableEq

/-- The `AgentRouteStep` record of the source. -/
structure AgentRouteStep where
  appartement : Appartement
  ordre : ℕ
  distanceDepuisPrecedent : ℚ
deriving DecidableEq

/-- The `AgentRoute` record of the source. -/
structure AgentRoute where
  agentId : String
  totalDistance : ℚ
  etapes : List AgentRouteStep
deriving DecidableEq

/-- JavaScript truthiness of a `string | null` value: `null` and `""` are
falsy, every other string is truthy. -/
def jsTruthyStr : Option String → Bool
  | none => false
  | some s => !(s == "")

/-- `Map.get`: first entry for the key, if any. -/
def mapGet (m : List (String × α)) (k : String) : Option α :=
  (m.find? (fun p => p.1 == k)).map (fun p => p.2)

/-- `Map.has`. -/
def mapHasB (m : List (String × α)) (k : String) : Bool :=
  m.any (fun p => p.1 == k)

/-- `Map.set`: overwrite the entry in place when the key is present,
append a fresh entry otherwise. -/
def mapSet (m : List (String × α)) (k : String) (v : α) : List (String × α) :=
  if mapHasB m k then m.map (fun p => if p.1 == k then (k, v) else p)
  else m ++ [(k, v)]

/-- `calculateWorkloadScore` (distributionAlgorithm.ts): the §4.1 weighted
sum `rooms * 10 + area * 0.5 + distance * 2 + difficulty * 15`. -/
def calculateWorkloadScore (appartement : Appartement) : ℚ :=
  appartement.nombre_chambres * 10 +
  appartement.surface * (1 / 2) +
  appartement.distance_base * 2 +
  appartement.difficulte * 15

/-- The zero-initialised summary installed for each agent by the first
phase of `calculateAgentScores`. -/
def zeroScore (agentId : String) : DistributionScore :=
  ⟨agentId, 0, 0, 0, 0, 0, 0⟩

/-- One accumulation step of the second phase of `calculateAgentScores`:
add the unit attributes onto the running sums, bump the count, and
(transiently) overwrite `score_equilibre` with the score of this single
unit — exactly the in-place mutation of the source. -/
def bumpScore (s : DistributionScore) (appt : Appartement) : DistributionScore :=
  { s with
    total_chambres := s.total_chambres + appt.nombre_chambres
    total_surface := s.total_surface + appt.surface
    total_distance := s.total_distance + appt.distance_base
    total_difficulte := s.total_difficulte + appt.difficulte
    nombre_appartements := s.nombre_appartements + 1
    score_equilibre := calculateWorkloadScore appt }

/-- The per-unit body of the second phase of `calculateAgentScores`:
`if (appt.agent_id && scores.has(appt.agent_id))` then mutate the summary
object stored under that key.  The `aid == ""` branch models the JavaScript
falsiness of the empty string in `appt.agent_id && …`. -/
def accumUnit (m : List (String × DistributionScore)) (appt : Appartement) :
    List (String × DistributionScore) :=
  match appt.agent_id with
  | none => m
  | some aid =>
    if aid == "" then m
    else if mapHasB m aid then
      m.map (fun p => if p.1 == aid then (p.1, bumpScore p.2 appt) else p)
    else m

/-- The third phase of `calculateAgentScores`: recompute `score_equilibre`
from the accumulated totals with the §4.1 weights. -/
def rescore (s : DistributionScore) : DistributionScore :=
  { s with
    score_equilibre :=
      s.total_chambres * 10 +
      s.total_surface * (1 / 2) +
      s.total_distance * 2 +
      s.total_difficulte * 15 }

/-- `calculateAgentScores` (distributionAlgorithm.ts): zero-initialise one
summary per agent, fold the units over the map, then recompute every
balance score from the totals. -/
def calculateAgentScores (agents : List Agent) (appartements : List Appartement) :
    List (String × DistributionScore) :=
  let scores := agents.foldl (fun m agent => mapSet m agent.id (zeroScore agent.id)) []
  let scores2 := appartements.foldl accumUnit scores
  scores2.map (fun p => (p.1, rescore p.2))

/-- The fleet-average expression recomputed inside the candidate loop of
`suggestOptimalAgent`: the sum of `score_equilibre` over the entries of the
summaries map, divided by the length of the agent list. -/
def fleetAverage (currentScores : List (String × DistributionScore)) (agents : List Agent) : ℚ :=
  (currentScores.map (fun p => p.2.score_equilibre)).sum / (agents.length : ℚ)

/-- Modelled from the spec (§4.4), for comparison with `fleetAverage`:
`mean of current_summaries[*].balance_score across all workers`, a worker
with no summary entry contributing zero. -/
def specFleetAverage (currentScores : List (String × DistributionScore)) (agents : List Agent) : ℚ :=
  (agents.map (fun ag =>
    ((mapGet currentScores ag.id).map (fun s => s.score_equilibre)).getD 0)).sum /
  (agents.length : ℚ)

/-- `d < bound` where `none` stands for the initial JavaScript `Infinity`:
every finite value is below `Infinity`. -/
def ltInf (d : ℚ) : Option ℚ → Bool
  | none => true
  | some b => decide (d < b)

/-- The body of the `agents.forEach` loop of `suggestOptimalAgent`: state
`(bestAgent, lowestScoreDiff)`, the second component starting at
`Infinity` (`none`); the candidate score adds the unit score and the flat
sector bonus onto the current balance score (a missing map entry reads as
`0`, as `?.score_equilibre || 0` does), and the fleet average is
recomputed on every iteration exactly as in the source. -/
def suggestStep (appartement : Appartement) (agents : List Agent)
    (currentScores : List (String × DistributionScore))
    (st : Option String × Option ℚ) (agent : Agent) : Option String × Option ℚ :=
  let apptScore := calculateWorkloadScore appartement
  let agentScore := ((mapGet currentScores agent.id).map
    (fun s => s.score_equilibre)).getD 0
  let secteurBonus : ℚ :=
    if agent.secteur_preference = some appartement.secteur then -20 else 0
  let newScore := agentScore + apptScore + secteurBonus
  let avgScore := fleetAverage currentScores agents
  let scoreDiff := |newScore - avgScore|
  if ltInf scoreDiff st.2 then (some agent.id, some scoreDiff) else st

/-- `suggestOptimalAgent` (distributionAlgorithm.ts). -/
def suggestOptimalAgent (appartement : Appartement) (agents : List Agent)
    (currentScores : List (String × DistributionScore)) : Option String :=
  if agents.length = 0 then none
  else (agents.foldl (suggestStep appartement agents currentScores) (none, none)).1

/-- `calculateEquilibreGlobal` (distributionAlgorithm.ts).  `sq` is the
square root used to form the standard deviation (`Math.sqrt` in the
source); it is a parameter because exact rational square roots do not
exist, and no claim below depends on its values. -/
def calculateEquilibreGlobal (sq : ℚ → ℚ)
    (scores : List (String × DistributionScore)) : ℚ :=
  let scoreValues := scores.map (fun p => p.2.score_equilibre)
  if scoreValues.length = 0 then 0
  else
    let avg := scoreValues.sum / (scoreValues.length : ℚ)
    let variance :=
      (scoreValues.map (fun v => (v - avg) ^ 2)).sum / (scoreValues.length : ℚ)
    let stdDev := sq variance
    let coefficientOfVariation := if avg > 0 then stdDev / avg * 100 else 0
    max 0 (100 - coefficientOfVariation)

/-- The coordinate pair of a unit, as read through the non-null assertions
`appt.latitude!` / `appt.longitude!` of the source (only ever applied to
units that passed the coordinate filter). -/
def apptPoint (a : Appartement) : Point :=
  ⟨a.latitude.getD 0, a.longitude.getD 0⟩

/-- The per-candidate distance inside `buildAgentRoute`: `0` while no
current point exists, otherwise the distance from the current point. -/
def legDist (dist : Point → Point → ℚ) (current : Option Point) (a : Appartement) : ℚ :=
  match current with
  | none => 0
  | some c => dist c (apptPoint a)

/-- The `remaining.forEach((appt, index) => …)` selection loop of
`buildAgentRoute`: state `(bestIndex, bestDistance)`, `bestDistance`
starting at `Infinity` (`none`), strict improvement only. -/
def bestStep (dist : Point → Point → ℚ) (current : Option Point) :
    List Appartement → ℕ → ℕ × Option ℚ → ℕ × Option ℚ
  | [], _, st => st
  | a :: rest, idx, st =>
    let d := legDist dist current a
    if ltInf d st.2 then bestStep dist current rest (idx + 1) (idx, some d)
    else bestStep dist current rest (idx + 1) st

/-- The index selected by one pass of the `forEach` loop of
`buildAgentRoute` (`bestIndex` after the loop). -/
def bestIndexFold (dist : Point → Point → ℚ) (current : Option Point)
    (remaining : List Appartement) : ℕ :=
  (bestStep dist current remaining 0 (0, none)).1

/-- The `while (remaining.length > 0)` loop of `buildAgentRoute`, as a
fuel-indexed recursion; each iteration splices out the selected unit,
charges its leg distance (zero while no current point exists) and advances
the current point.  The loop of the source removes exactly one element per
iteration, so running this with fuel `remaining.length` is the loop.  The
out-of-range guard branch is unreachable (`bestIndexFold_lt` below). -/
def routeLoop (dist : Point → Point → ℚ) :
    ℕ → Option Point → List Appartement → ℕ → List AgentRouteStep × ℚ
  | _, _, [], _ => ([], 0)
  | 0, _, _ :: _, _ => ([], 0)
  | fuel + 1, current, a :: rest, ordre =>
    let remaining := a :: rest
    let bi := bestIndexFold dist current remaining
    if h : bi < remaining.length then
      let next := remaining.get ⟨bi, h⟩
      let d := legDist dist current next
      let restResult :=
        routeLoop dist fuel (some (apptPoint next)) (remaining.eraseIdx bi) (ordre + 1)
      (⟨next, ordre, d⟩ :: restResult.1, d + restResult.2)
    else ([], 0)

/-- The coordinate filter of `buildAgentRoute`:
`a.latitude !== null && a.longitude !== null`. -/
def hasCoords (a : Appartement) : Bool :=
  a.latitude.isSome && a.longitude.isSome

/-- `buildAgentRoute` (distributionAlgorithm.ts).  `dist` is the
great-circle distance function (`calculateDistanceKm` in the source),
taken as a parameter because the haversine formula is transcendental;
every claim below holds for an arbitrary `dist`. -/
def buildAgentRoute (dist : Point → Point → ℚ) (agentId : String)
    (appartements : List Appartement) (base : Option Point) : AgentRoute :=
  let visitables := appartements.filter hasCoords
  if visitables.length = 0 then ⟨agentId, 0, []⟩
  else
    let r := routeLoop dist visitables.length base visitables 1
    ⟨agentId, r.2, r.1⟩

/-- A heap of summary records: the simulation pass of
`handleAutoDistribute` mutates summary objects in place, so object
identity matters; cells are numbered by naturals. -/
def Store : Type := ℕ → DistributionScore

/-- A `Map<string, DistributionScore>` value as the component holds it: an
association of keys to heap cells.  `new Map(m)` copies this association
and shares the cells, which is how the source aliases the caller map. -/
def ScoreMapRef : Type := List (String × ℕ)

/-- Write one heap cell. -/
def storeUpdate (st : Store) (r : ℕ) (v : DistributionScore) : Store :=
  fun i => if i = r then v else st i

/-- The observable contents of a map of references: what iterating the
`Map` yields at a given heap state. -/
def derefMap (m : ScoreMapRef) (st : Store) : List (String × DistributionScore) :=
  m.map (fun p => (p.1, st p.2))

/-- The in-place simulation update of `handleAutoDistribute` (lines
193-202 of AppartementsList.tsx): add the unit attributes onto the totals,
bump the count, then recompute `score_equilibre` from the new totals. -/
def simBump (s : DistributionScore) (appartement : Appartement) : DistributionScore :=
  let t :=
    { s with
      total_chambres := s.total_chambres + appartement.nombre_chambres
      total_surface := s.total_surface + appartement.surface
      total_distance := s.total_distance + appartement.distance_base
      total_difficulte := s.total_difficulte + appartement.difficulte
      nombre_appartements := s.nombre_appartements + 1 }
  { t with
    score_equilibre :=
      t.total_chambres * 10 +
      t.total_surface * (1 / 2) +
      t.total_distance * 2 +
      t.total_difficulte * 15 }

/-- The candidate filter of `handleAutoDistribute`:
`!appt.agent_id && appt.statut !== 'inactif'` (JavaScript falsiness on the
nullable reference). -/
def eligibleUnit (a : Appartement) : Bool :=
  (!(jsTruthyStr a.agent_id)) && (!(a.statut == "inactif"))

/-- The four terminal outcomes of `handleAutoDistribute`, distinguished in
the source by its early returns and feedback messages: empty roster
(line 159), nothing eligible to assign (line 166), no pairing produced
(line 206), and the accepted pairings handed to the commit loop. -/
inductive AutoDistributeResult where
  | emptyRoster
  | nothingToAssign
  | noViable
  | assigned (pairs : List (Appartement × String))
deriving DecidableEq

/-- `handleAutoDistribute` (AppartementsList.tsx) up to the commit loop:
roster check, eligibility filter, descending sort by workload score,
greedy pass calling `suggestOptimalAgent` on the continuously updated
summaries, in-place update of the summary object found in the copied map.
`scoreMap` is the caller map of references and `st` the heap; the copied
`currentScores` is the same reference list, so updates land in the shared
cells.  Returns the outcome together with the final heap. -/
def handleAutoDistribute (agents : List Agent) (appartements : List Appartement)
    (scoreMap : ScoreMapRef) (st : Store) : AutoDistributeResult × Store :=
  if agents.length = 0 then (.emptyRoster, st)
  else
    let unassigned := appartements.filter eligibleUnit
    if unassigned.length = 0 then (.nothingToAssign, st)
    else
      let currentScores := scoreMap
      let sorted := unassigned.mergeSort
        (fun a b => decide (calculateWorkloadScore b ≤ calculateWorkloadScore a))
      let result := sorted.foldl
        (fun (acc : List (Appartement × String) × Store) appartement =>
          match suggestOptimalAgent appartement agents (derefMap currentScores acc.2) with
          | none => acc
          | some agentId =>
            let pairs := acc.1 ++ [(appartement, agentId)]
            match mapGet currentScores agentId with
            | some r => (pairs, storeUpdate acc.2 r (simBump (acc.2 r) appartement))
            | none => (pairs, acc.2))
        ([], st)
      if result.1.length = 0 then (.noViable, result.2)
      else (.assigned result.1, result.2)

/-- The units counted for key `k` by `calculateAgentScores`: a truthy
assigned-worker reference equal to `k`. -/
def countedB (k : String) (p : Appartement) : Bool :=
  match p.agent_id with
  | none => false
  | some aid => (!(aid == "")) && (aid == k)

/-- The units counted by `calculateAgentScores` for some agent of the
list: a truthy assigned-worker reference that is the id of a known agent. -/
def codeCountedB (agents : List Agent) (p : Appartement) : Bool :=
  match p.agent_id with
  | none => false
  | some aid => (!(aid == "")) && (agents.map (fun a => a.id)).contains aid

/-- Modelled from the spec (§8), for comparison with `codeCountedB`:
`units whose assigned-worker reference is non-null and equals the id of
some input worker`. -/
def specAssignedToKnown (agents : List Agent) (p : Appartement) : Bool :=
  match p.agent_id with
  | none => false
  | some aid => (agents.map (fun a => a.id)).contains aid

/-- Sum of the `nombre_appartements` fields over a summaries map. -/
def sumCounts (m : List (String × DistributionScore)) : ℕ :=
  (m.map (fun p => p.2.nombre_appartements)).sum

/-! ### Concrete records used by witnesses and counterexamples -/

/-- A worker with id `a1` and no sector preference. -/
def exAgent1 : Agent := ⟨"a1", "n", "e", none, 0⟩

/-- An unassigned, available unit with rooms 2, area 50, distance 5,
difficulty 3 (workload score 100, the §8 concrete scenario). -/
def exUnit100 : Appartement :=
  ⟨"u1", "n", "ad", "s", 2, 50, 5, none, none, 3, none, "disponible"⟩

/-- An available unit whose assigned-worker reference is the empty string
(falsy in JavaScript but not null). -/
def exUnitEmptyRef : Appartement :=
  ⟨"u2", "n", "ad", "s", 2, 50, 5, none, none, 3, some "", "disponible"⟩

/-- A worker whose id is the empty string. -/
def exAgentEmptyId : Agent := ⟨"", "n", "e", none, 0⟩

/-- A unit assigned to worker `a1`. -/
def exUnitAssigned : Appartement :=
  ⟨"u3", "n", "ad", "s", 2, 50, 5, none, none, 3, some "a1", "assigne"⟩

/-- A summary holding balance score 100 (used under a key outside the
roster). -/
def exScoreW2 : DistributionScore := ⟨"w2", 0, 0, 0, 0, 0, 100⟩

/-- The summary produced for `a1` from the single unit `exUnitAssigned`. -/
def exScoreA1 : DistributionScore := ⟨"a1", 2, 50, 5, 3, 1, 100⟩

/-- A heap whose every cell holds the zero summary of `a1`. -/
def exStore0 : Store := fun _ => zeroScore "a1"

/-- A caller map binding `a1` to heap cell `0`. -/
def exMapC7 : ScoreMapRef := [("a1", 0)]

/-- A unit carrying coordinates. -/
def exUnitGeo : Appartement :=
  ⟨"g1", "n", "ad", "s", 1, 10, 1, some 1, some 2, 1, none, "disponible"⟩

/-- A second unit carrying coordinates. -/
def exUnitGeo2 : Appartement :=
  ⟨"g2", "n", "ad", "s", 1, 10, 1, some 3, some 4, 1, none, "disponible"⟩

/-- A constant distance function, a concrete instance of the abstract
metric parameter of `buildAgentRoute`. -/
def unitDist : Point → Point → ℚ := fun _ _ => 1

/-! ### Association-list (JavaScript `Map`) lemmas -/

theorem mapGet_nil {α : Type} (k : String) : mapGet ([] : List (String × α)) k = none := rfl

theorem mapGet_cons {α : Type} (p : String × α) (m : List (String × α)) (k : String) :
    mapGet (p :: m) k = if p.1 == k then some p.2 else mapGet m k := by
  cases h : p.1 == k <;> simp [mapGet, List.find?_cons, h]

theorem mapHasB_iff {α : Type} (m : List (String × α)) (k : String) :
    mapHasB m k = true ↔ k ∈ m.map (fun p => p.1) := by
  simp [mapHasB, List.any_eq_true]

theorem mapGet_isSome_iff {α : Type} (m : List (String × α)) (k : String) :
    (mapGet m k).isSome = true ↔ mapHasB m k = true := by
  induction m with
  | nil => simp [mapGet_nil, mapHasB]
  | cons p rest ih =>
    cases h : p.1 == k <;> simp_all [mapGet_cons, mapHasB, h, List.any_cons]

theorem mapGet_eq_none_of_not_has {α : Type} (m : List (String × α)) (k : String)
    (h : mapHasB m k = false) : mapGet m k = none := by
  have hiff := mapGet_isSome_iff m k
  cases hg : mapGet m k with
  | none => rfl
  | some v => rw [hg] at hiff; simp [h] at hiff

theorem mapGet_mapValue {α : Type} (g : α → α) (m : List (String × α)) (k : String) :
    mapGet (m.map (fun p => (p.1, g p.2))) k = (mapGet m k).map g := by
  induction m with
  | nil => simp [mapGet_nil]
  | cons p rest ih => cases h : p.1 == k <;> simp [mapGet_cons, h, ih]

theorem mapGet_bumpAt {α : Type} (g : α → α) (aid : String) (m : List (String × α))
    (k : String) :
    mapGet (m.map (fun p => if p.1 == aid then (p.1, g p.2) else p)) k
      = if k = aid then (mapGet m k).map g else mapGet m k := by
  induction m with
  | nil => simp [mapGet_nil]
  | cons p rest ih =>
    by_cases hpa : p.1 = aid <;> by_cases hka : k = aid <;>
      by_cases hpk : p.1 = k <;> simp_all [mapGet_cons]

theorem mapGet_setAt {α : Type} (v : α) (k : String) (m : List (String × α))
    (j : String) :
    mapGet (m.map (fun p => if p.1 == k then (k, v) else p)) j
      = if j = k then (mapGet m k).map (fun _ => v) else mapGet m j := by
  induction m with
  | nil => simp [mapGet_nil]
  | cons p rest ih =>
    by_cases hpa : p.1 = k <;> by_cases hjk : j = k <;>
      by_cases hpj : p.1 = j <;> simp_all [mapGet_cons]

theorem mapGet_bumpAtP {α : Type} (g : α → α) (aid : String) (m : List (String × α))
    (k : String) :
    mapGet (m.map (fun p => if p.1 = aid then (p.1, g p.2) else p)) k
      = if k = aid then (mapGet m k).map g else mapGet m k := by
  induction m with
  | nil => simp [mapGet_nil]
  | cons p rest ih =>
    by_cases hpa : p.1 = aid <;> by_cases hka : k = aid <;>
      by_cases hpk : p.1 = k <;> simp_all [mapGet_cons]

theorem keys_bumpAt {α : Type} (g : α → α) (aid : String) (m : List (String × α)) :
    (m.map (fun p => if p.1 == aid then (p.1, g p.2) else p)).map (fun p => p.1)
      = m.map (fun p => p.1) := by
  rw [List.map_map]
  apply List.map_congr_left
  intro p _
  by_cases h : p.1 = aid <;> simp [h]

theorem mapGet_mapSet {α : Type} (m : List (String × α)) (k j : String) (v : α) :
    mapGet (mapSet m k v) j = if j = k then some v else mapGet m j := by
  unfold mapSet
  cases hhas : mapHasB m k with
  | false =>
    have hn : List.find? (fun p => p.1 == k) m = none := by
      have := mapGet_eq_none_of_not_has m k hhas
      simpa [mapGet] using this
    simp only [Bool.false_eq_true, if_false]
    by_cases hj : j = k
    · subst hj
      simp [mapGet, List.find?_append, hn]
    · have hk : (k == j) = false := by simp [Ne.symm hj]
      simp [mapGet, List.find?_append, hk, hj]
  | true =>
    simp only [if_true]
    rw [mapGet_setAt]
    by_cases hj : j = k
    · subst hj
      have hs : (mapGet m j).isSome = true := (mapGet_isSome_iff m j).2 hhas
      cases hg : mapGet m j with
      | none => rw [hg] at hs; simp at hs
      | some w => simp [hg]
    · simp [hj]

theorem keys_mapSet_of_has {α : Type} (m : List (String × α)) (k : String) (v : α)
    (h : mapHasB m k = true) :
    (mapSet m k v).map (fun p => p.1) = m.map (fun p => p.1) := by
  unfold mapSet
  simp only [h, if_true]
  rw [List.map_map]
  apply List.map_congr_left
  intro p _
  by_cases hp : p.1 = k <;> simp [hp]

theorem keys_mapSet_of_not_has {α : Type} (m : List (String × α)) (k : String) (v : α)
    (h : mapHasB m k = false) :
    (mapSet m k v).map (fun p => p.1) = m.map (fun p => p.1) ++ [k] := by
  unfold mapSet
  simp [h]

/-! ### `calculateAgentScores` structure lemmas -/

theorem mapGet_accumUnit (m : List (String × DistributionScore)) (appt : Appartement)
    (j : String) :
    mapGet (accumUnit m appt) j =
      if countedB j appt then (mapGet m j).map (fun s => bumpScore s appt)
      else mapGet m j := by
  cases haid : appt.agent_id with
  | none => simp [accumUnit, countedB, haid]
  | some aid =>
    by_cases he : aid = ""
    · simp [accumUnit, countedB, haid, he]
    · cases hhas : mapHasB m aid with
      | true =>
        by_cases hj : j = aid
        · subst hj
          simp [accumUnit, countedB, haid, he, hhas,
            mapGet_bumpAtP (fun s => bumpScore s appt)]
        · simp [accumUnit, countedB, haid, he, hhas,
            mapGet_bumpAtP (fun s => bumpScore s appt), hj, Ne.symm hj]
      | false =>
        by_cases hj : j = aid
        · subst hj
          simp [accumUnit, countedB, haid, he, hhas,
            mapGet_eq_none_of_not_has m j hhas]
        · simp [accumUnit, countedB, haid, he, hhas, hj, Ne.symm hj]

theorem mapGet_foldl_accumUnit (appts : List Appartement) :
    ∀ (m : List (String × DistributionScore)) (j : String),
    mapGet (appts.foldl accumUnit m) j
      = (mapGet m j).map
          (fun s => (appts.filter (countedB j)).foldl (fun s a => bumpScore s a) s) := by
  induction appts with
  | nil => intro m j; simp
  | cons a rest ih =>
    intro m j
    rw [List.foldl_cons, ih, mapGet_accumUnit]
    cases hc : countedB j a with
    | true => cases hg : mapGet m j <;> simp [List.filter_cons, hc, hg]
    | false => simp [List.filter_cons, hc]

theorem keys_accumUnit (m : List (String × DistributionScore)) (appt : Appartement) :
    (accumUnit m appt).map (fun p => p.1) = m.map (fun p => p.1) := by
  cases haid : appt.agent_id with
  | none => simp [accumUnit, haid]
  | some aid =>
    by_cases he : aid = ""
    · simp [accumUnit, haid, he]
    · cases hhas : mapHasB m aid with
      | true =>
        simp [accumUnit, haid, he, hhas]
        intro a b _
        by_cases hb : a = aid <;> simp [hb]
      | false => simp [accumUnit, haid, he, hhas]

theorem keys_foldl_accumUnit (appts : List Appartement) :
    ∀ (m : List (String × DistributionScore)),
    (appts.foldl accumUnit m).map (fun p => p.1) = m.map (fun p => p.1) := by
  induction appts with
  | nil => intro m; rfl
  | cons a rest ih => intro m; rw [List.foldl_cons, ih, keys_accumUnit]

theorem mapGet_initScores (agents : List Agent) :
    ∀ (m0 : List (String × DistributionScore)) (j : String),
    mapGet (agents.foldl (fun m agent => mapSet m agent.id (zeroScore agent.id)) m0) j
      = if j ∈ agents.map (fun a => a.id) then some (zeroScore j) else mapGet m0 j := by
  induction agents with
  | nil => intro m0 j; simp
  | cons a rest ih =>
    intro m0 j
    rw [List.foldl_cons, ih, mapGet_mapSet]
    by_cases hr : j ∈ rest.map (fun a => a.id)
    · simp [hr]
    · by_cases hj : j = a.id
      · subst hj; simp [hr]
      · simp [hr, hj]

theorem mapGet_calculateAgentScores (agents : List Agent) (appts : List Appartement)
    (j : String) :
    mapGet (calculateAgentScores agents appts) j
      = if j ∈ agents.map (fun a => a.id) then
          some (rescore
            ((appts.filter (countedB j)).foldl (fun s a => bumpScore s a) (zeroScore j)))
        else none := by
  unfold calculateAgentScores
  rw [mapGet_mapValue rescore, mapGet_foldl_accumUnit, mapGet_initScores]
  by_cases hj : j ∈ agents.map (fun a => a.id) <;> simp [hj, mapGet_nil]

/-! ### Accumulated totals of the bump fold -/

theorem foldl_bump_chambres (l : List Appartement) :
    ∀ s : DistributionScore,
    (l.foldl (fun s a => bumpScore s a) s).total_chambres
      = s.total_chambres + (l.map (fun a => a.nombre_chambres)).sum := by
  induction l with
  | nil => intro s; simp
  | cons a rest ih => intro s; rw [List.foldl_cons, ih]; simp [bumpScore, add_assoc]

theorem foldl_bump_surface (l : List Appartement) :
    ∀ s : DistributionScore,
    (l.foldl (fun s a => bumpScore s a) s).total_surface
      = s.total_surface + (l.map (fun a => a.surface)).sum := by
  induction l with
  | nil => intro s; simp
  | cons a rest ih => intro s; rw [List.foldl_cons, ih]; simp [bumpScore, add_assoc]

theorem foldl_bump_distance (l : List Appartement) :
    ∀ s : DistributionScore,
    (l.foldl (fun s a => bumpScore s a) s).total_distance
      = s.total_distance + (l.map (fun a => a.distance_base)).sum := by
  induction l with
  | nil => intro s; simp
  | cons a rest ih => intro s; rw [List.foldl_cons, ih]; simp [bumpScore, add_assoc]

theorem foldl_bump_difficulte (l : List Appartement) :
    ∀ s : DistributionScore,
    (l.foldl (fun s a => bumpScore s a) s).total_difficulte
      = s.total_difficulte + (l.map (fun a => a.difficulte)).sum := by
  induction l with
  | nil => intro s; simp
  | cons a rest ih => intro s; rw [List.foldl_cons, ih]; simp [bumpScore, add_assoc]

theorem foldl_bump_nombre (l : List Appartement) :
    ∀ s : DistributionScore,
    (l.foldl (fun s a => bumpScore s a) s).nombre_appartements
      = s.nombre_appartements + l.length := by
  induction l with
  | nil => intro s; simp
  | cons a rest ih =>
    intro s; rw [List.foldl_cons, ih]; simp [bumpScore]; omega

theorem sum_workload (l : List Appartement) :
    (l.map calculateWorkloadScore).sum
      = (l.map (fun a => a.nombre_chambres)).sum * 10
      + (l.map (fun a => a.surface)).sum * (1 / 2)
      + (l.map (fun a => a.distance_base)).sum * 2
      + (l.map (fun a => a.difficulte)).sum * 15 := by
  induction l with
  | nil => simp
  | cons a rest ih => simp [calculateWorkloadScore, ih]; ring

/-! ### Claim C4 -/

/-- Claim C4: for every worker present in the output of
`calculateAgentScores`, the final balance score equals the §4.1 weight
formula applied to that worker's accumulated totals, and this value equals
the sum of the individual workload scores of the units counted for that
worker; the transient per-unit overwrite of `score_equilibre` has no
effect on the final result. -/
theorem claim_c4_totals_and_sum (agents : List Agent) (appts : List Appartement)
    (k : String) (s : DistributionScore)
    (h : mapGet (calculateAgentScores agents appts) k = some s) :
    s.score_equilibre = s.total_chambres * 10 + s.total_surface * (1 / 2)
        + s.total_distance * 2 + s.total_difficulte * 15
    ∧ s.score_equilibre = ((appts.filter (countedB k)).map calculateWorkloadScore).sum := by
  rw [mapGet_calculateAgentScores] at h
  by_cases hk : k ∈ agents.map (fun a => a.id)
  · rw [if_pos hk] at h
    have hs := Option.some.inj h
    subst hs
    constructor
    · simp [rescore]
    · simp only [rescore]
      rw [foldl_bump_chambres, foldl_bump_surface, foldl_bump_distance,
        foldl_bump_difficulte, sum_workload]
      simp [zeroScore]
  · rw [if_neg hk] at h
    exact absurd h (by simp)

/-- Witness for C4 at a concrete input: one worker `a1`, one unit assigned
to it with rooms 2, area 50, distance 5, difficulty 3; the produced
summary is `⟨a1, 2, 50, 5, 3, 1, 100⟩` and both equalities hold at it. -/
theorem claim_c4_totals_and_sum_witness :
    exScoreA1.score_equilibre = exScoreA1.total_chambres * 10
        + exScoreA1.total_surface * (1 / 2)
        + exScoreA1.total_distance * 2 + exScoreA1.total_difficulte * 15
    ∧ exScoreA1.score_equilibre
        = (([exUnitAssigned].filter (countedB "a1")).map calculateWorkloadScore).sum :=
  claim_c4_totals_and_sum [exAgent1] [exUnitAssigned] "a1" exScoreA1 (by
    simp [calculateAgentScores, mapSet, mapHasB, accumUnit, mapGet, rescore,
      bumpScore, zeroScore, exAgent1, exUnitAssigned, calculateWorkloadScore, exScoreA1]
    norm_num)

/-! ### Claim C1 -/

theorem suggestFold_isSome (ap : Appartement) (ags : List Agent)
    (cs : List (String × DistributionScore)) (l : List Agent) :
    ∀ st : Option String × Option ℚ, st.1.isSome = true →
      ((l.foldl (suggestStep ap ags cs) st).1).isSome = true := by
  induction l with
  | nil => intro st h; simpa using h
  | cons a rest ih =>
    intro st h
    rw [List.foldl_cons]
    apply ih
    simp only [suggestStep]
    split <;> split <;> simp_all

/-- Claim C1: `suggestOptimalAgent` returns `none` if and only if the
worker list is empty; in particular every non-empty roster yields a
recommendation (all embedded attribute values are finite rationals). -/
theorem claim_c1_none_iff_empty (appartement : Appartement) (agents : List Agent)
    (currentScores : List (String × DistributionScore)) :
    suggestOptimalAgent appartement agents currentScores = none ↔ agents = [] := by
  cases agents with
  | nil => simp [suggestOptimalAgent]
  | cons a rest =>
    have hne : (((a :: rest).foldl
        (suggestStep appartement (a :: rest) currentScores) (none, none)).1).isSome
        = true := by
      rw [List.foldl_cons]
      apply suggestFold_isSome
      simp [suggestStep, ltInf]
    simp only [suggestOptimalAgent, List.length_cons]
    rw [if_neg (by simp)]
    constructor
    · intro h
      rw [h] at hne
      simp at hne
    · intro h
      simp at h

/-! ### Claim C3 -/

/-- Counterexample to C3 as stated: with roster `[a1]` and a summaries map
whose only key is `w2` (not a roster id), the average the code compares
against is `100`, while the average of the claim (over roster workers,
missing entries contributing 0) is `0`. -/
theorem claim_c3_counterexample :
    fleetAverage [("w2", exScoreW2)] [exAgent1]
        ≠ specFleetAverage [("w2", exScoreW2)] [exAgent1]
    ∧ fleetAverage [("w2", exScoreW2)] [exAgent1] = 100
    ∧ specFleetAverage [("w2", exScoreW2)] [exAgent1] = 0 := by
  have h1 : fleetAverage [("w2", exScoreW2)] [exAgent1] = 100 := by
    norm_num [fleetAverage, exScoreW2]
  have h2 : specFleetAverage [("w2", exScoreW2)] [exAgent1] = 0 := by
    simp [specFleetAverage, mapGet, exScoreW2, exAgent1]
  refine ⟨?_, h1, h2⟩
  rw [h1, h2]
  norm_num

theorem sum_scores_eq_sum_get (m : List (String × DistributionScore)) :
    ∀ agents : List Agent,
      m.map (fun p => p.1) = agents.map (fun a => a.id) →
      (agents.map (fun a => a.id)).Nodup →
      (m.map (fun p => p.2.score_equilibre)).sum
        = (agents.map (fun ag =>
            ((mapGet m ag.id).map (fun s => s.score_equilibre)).getD 0)).sum := by
  induction m with
  | nil =>
    intro agents h1 _
    have : agents = [] := by
      cases agents with
      | nil => rfl
      | cons a ags => simp at h1
    subst this
    simp
  | cons p rest ih =>
    intro agents h1 h2
    cases agents with
    | nil => simp at h1
    | cons a ags =>
      simp only [List.map_cons] at h1
      injection h1 with hpk hrest
      simp only [List.map_cons, List.sum_cons] at h2 ⊢
      have hget : mapGet (p :: rest) a.id = some p.2 := by
        rw [mapGet_cons]
        simp [hpk]
      rw [hget]
      have hnd := List.nodup_cons.mp h2
      have htail : ags.map (fun ag =>
            ((mapGet (p :: rest) ag.id).map (fun s => s.score_equilibre)).getD 0)
          = ags.map (fun ag =>
            ((mapGet rest ag.id).map (fun s => s.score_equilibre)).getD 0) := by
        apply List.map_congr_left
        intro ag hag
        have hmem : ag.id ∈ ags.map (fun a => a.id) := List.mem_map_of_mem _ hag
        have hne : (p.1 == ag.id) = false := by
          have : ag.id ≠ a.id := fun hEq => hnd.1 (hEq ▸ hmem)
          simp [hpk, Ne.symm this]
        rw [mapGet_cons, hne]
        simp
      rw [htail, ih ags hrest hnd.2]
      simp

/-- Claim C3, amended: the fleet average used by `suggestOptimalAgent` is
the sum of balance scores over the entries of the summaries map divided by
the roster size; it coincides with the roster-indexed mean of the claim
exactly when the keys of the map are the (distinct) roster ids. -/
theorem claim_c3_amended (agents : List Agent) (m : List (String × DistributionScore))
    (h1 : m.map (fun p => p.1) = agents.map (fun a => a.id))
    (h2 : (agents.map (fun a => a.id)).Nodup) :
    fleetAverage m agents = specFleetAverage m agents := by
  unfold fleetAverage specFleetAverage
  rw [sum_scores_eq_sum_get m agents h1 h2]

/-- Witness for the amended C3: a map whose single key is the single
roster id. -/
theorem claim_c3_amended_witness :
    fleetAverage [("a1", exScoreW2)] [exAgent1]
      = specFleetAverage [("a1", exScoreW2)] [exAgent1] :=
  claim_c3_amended [exAgent1] [("a1", exScoreW2)] (by simp [exAgent1]) (by simp [exAgent1])

/-! ### Claim C8 -/

/-- Counterexample to C8 as stated: a non-empty summaries map whose
balance scores have non-positive mean (a single all-zero summary) on
which `calculateEquilibreGlobal` returns `100`, not `0`.  The square-root
parameter is irrelevant in this branch. -/
theorem claim_c8_counterexample :
    ([(("a1" : String), zeroScore "a1")] : List (String × DistributionScore)) ≠ []
    ∧ (([(("a1" : String), zeroScore "a1")].map (fun p => p.2.score_equilibre)).sum
        / (([(("a1" : String), zeroScore "a1")].map
            (fun p => p.2.score_equilibre)).length : ℚ) ≤ 0)
    ∧ calculateEquilibreGlobal (fun _ => 0) [("a1", zeroScore "a1")] = 100 := by
  refine ⟨by simp, by norm_num [zeroScore], ?_⟩
  norm_num [calculateEquilibreGlobal, zeroScore]

/-- Claim C8, amended: for every non-empty summaries map whose balance
scores have non-positive mean, `calculateEquilibreGlobal` returns `100`
(the coefficient of variation is forced to `0` when the mean is not
positive, so the result is `max 0 (100 - 0)`), for every square-root
implementation. -/
theorem claim_c8_amended (sq : ℚ → ℚ) (m : List (String × DistributionScore))
    (h1 : m ≠ [])
    (h2 : (m.map (fun p => p.2.score_equilibre)).sum
        / ((m.map (fun p => p.2.score_equilibre)).length : ℚ) ≤ 0) :
    calculateEquilibreGlobal sq m = 100 := by
  have hlen : ¬(m.map (fun p => p.2.score_equilibre)).length = 0 := by
    simp [h1]
  have hneg : ¬((m.map (fun p => p.2.score_equilibre)).sum
      / ((m.map (fun p => p.2.score_equilibre)).length : ℚ) > 0) := not_lt.mpr h2
  simp only [calculateEquilibreGlobal]
  rw [if_neg hlen, if_neg hneg]
  norm_num

/-- Witness for the amended C8 at the single all-zero summary. -/
theorem claim_c8_amended_witness :
    calculateEquilibreGlobal (fun _ => 0) [("a1", zeroScore "a1")] = 100 :=
  claim_c8_amended (fun _ => 0) [("a1", zeroScore "a1")] (by simp)
    (by norm_num [zeroScore])

/-! ### Claim C5 -/

theorem keys_mapValue {α : Type} (g : α → α) (m : List (String × α)) :
    (m.map (fun p => (p.1, g p.2))).map (fun p => p.1) = m.map (fun p => p.1) := by
  rw [List.map_map]
  rfl

theorem keys_initScores_nodup (agents : List Agent) :
    ∀ m0 : List (String × DistributionScore), (m0.map (fun p => p.1)).Nodup →
    ((agents.foldl (fun m agent => mapSet m agent.id (zeroScore agent.id)) m0).map
      (fun p => p.1)).Nodup := by
  induction agents with
  | nil => intro m0 h; simpa using h
  | cons a rest ih =>
    intro m0 h
    rw [List.foldl_cons]
    apply ih
    cases hhas : mapHasB m0 a.id with
    | true => rw [keys_mapSet_of_has m0 a.id _ hhas]; exact h
    | false =>
      rw [keys_mapSet_of_not_has m0 a.id _ hhas]
      have hnotmem : a.id ∉ m0.map (fun p => p.1) := by
        intro hmem
        rw [← mapHasB_iff] at hmem
        simp [hhas] at hmem
      simp [List.nodup_append, h, hnotmem]

theorem values_initScores_nombre_zero (agents : List Agent) :
    ∀ m0 : List (String × DistributionScore),
    (∀ p ∈ m0, p.2.nombre_appartements = 0) →
    ∀ p ∈ agents.foldl (fun m agent => mapSet m agent.id (zeroScore agent.id)) m0,
      p.2.nombre_appartements = 0 := by
  induction agents with
  | nil => intro m0 h; simpa using h
  | cons a rest ih =>
    intro m0 h
    rw [List.foldl_cons]
    apply ih
    intro p hp
    unfold mapSet at hp
    cases hhas : mapHasB m0 a.id with
    | true =>
      rw [hhas] at hp
      simp only [if_true] at hp
      obtain ⟨q, hq, hfq⟩ := List.mem_map.mp hp
      by_cases hqa : q.1 == a.id
      · rw [if_pos hqa] at hfq
        rw [← hfq]
        simp [zeroScore]
      · rw [if_neg hqa] at hfq
        rw [← hfq]
        exact h q hq
    | false =>
      rw [hhas] at hp
      simp only [Bool.false_eq_true, if_false, List.mem_append] at hp
      cases hp with
      | inl hin => exact h p hin
      | inr hin =>
        simp only [List.mem_singleton] at hin
        rw [hin]
        simp [zeroScore]

theorem sumCounts_eq_zero (m : List (String × DistributionScore))
    (h : ∀ p ∈ m, p.2.nombre_appartements = 0) : sumCounts m = 0 := by
  unfold sumCounts
  apply List.sum_eq_zero
  intro x hx
  obtain ⟨p, hp, hfp⟩ := List.mem_map.mp hx
  rw [← hfp]
  exact h p hp

theorem sumCounts_bumpAt (appt : Appartement) (aid : String) :
    ∀ m : List (String × DistributionScore), (m.map (fun p => p.1)).Nodup →
    mapHasB m aid = true →
    sumCounts (m.map (fun p => if p.1 == aid then (p.1, bumpScore p.2 appt) else p))
      = sumCounts m + 1 := by
  intro m
  induction m with
  | nil => intro _ h; simp [mapHasB] at h
  | cons p rest ih =>
    intro hnd hhas
    rw [List.map_cons] at hnd
    obtain ⟨hmem, hndr⟩ := List.nodup_cons.mp hnd
    by_cases hpa : p.1 == aid
    · have hpa' : p.1 = aid := by simpa using hpa
      have hrest : rest.map (fun q => if q.1 == aid then (q.1, bumpScore q.2 appt) else q)
          = rest := by
        have hpt : ∀ q ∈ rest,
            (if q.1 == aid then (q.1, bumpScore q.2 appt) else q) = q := by
          intro q hq
          have : q.1 ≠ aid := by
            intro hEq
            exact hmem (hpa' ▸ hEq ▸ List.mem_map_of_mem (fun p => p.1) hq)
          simp [this]
        exact (List.map_congr_left hpt).trans (List.map_id rest)
      simp only [List.map_cons, if_pos hpa, hrest]
      simp [sumCounts, bumpScore]
      omega
    · have hhas' : mapHasB rest aid = true := by
        unfold mapHasB at hhas ⊢
        simpa [hpa] using hhas
      have hrec := ih hndr hhas'
      simp only [List.map_cons, if_neg hpa]
      simp only [sumCounts, List.map_cons, List.sum_cons] at hrec ⊢
      omega

theorem sumCounts_accumUnit (m : List (String × DistributionScore)) (appt : Appartement)
    (hnd : (m.map (fun p => p.1)).Nodup) :
    sumCounts (accumUnit m appt)
      = sumCounts m +
        (if (match appt.agent_id with
              | none => false
              | some aid => (!(aid == "")) && mapHasB m aid) then 1 else 0) := by
  cases haid : appt.agent_id with
  | none => simp [accumUnit, haid]
  | some aid =>
    by_cases he : aid = ""
    · simp [accumUnit, haid, he]
    · cases hhas : mapHasB m aid with
      | true =>
        have hb := sumCounts_bumpAt appt aid m hnd hhas
        simp only [beq_iff_eq] at hb
        simp [accumUnit, haid, he, hhas, hb]
      | false => simp [accumUnit, haid, he, hhas]

theorem sumCounts_foldl_accumUnit (appts : List Appartement) :
    ∀ m : List (String × DistributionScore), (m.map (fun p => p.1)).Nodup →
    sumCounts (appts.foldl accumUnit m)
      = sumCounts m + appts.countP (fun p =>
          match p.agent_id with
          | none => false
          | some aid => (!(aid == "")) && mapHasB m aid) := by
  induction appts with
  | nil => intro m _; simp
  | cons a rest ih =>
    intro m hnd
    rw [List.foldl_cons]
    have hkeys : (accumUnit m a).map (fun p => p.1) = m.map (fun p => p.1) :=
      keys_accumUnit m a
    have hnd' : ((accumUnit m a).map (fun p => p.1)).Nodup := by rw [hkeys]; exact hnd
    rw [ih (accumUnit m a) hnd']
    have hhasEq : ∀ j, mapHasB (accumUnit m a) j = mapHasB m j := by
      intro j
      cases hm : mapHasB m j with
      | true =>
        have : j ∈ (accumUnit m a).map (fun p => p.1) := by
          rw [hkeys]; exact (mapHasB_iff m j).mp hm
        exact (mapHasB_iff _ j).mpr this
      | false =>
        cases hm2 : mapHasB (accumUnit m a) j with
        | false => rfl
        | true =>
          have := (mapHasB_iff _ j).mp hm2
          rw [hkeys] at this
          rw [(mapHasB_iff m j).mpr this] at hm
          exact hm
    have hcong : rest.countP (fun p =>
          match p.agent_id with
          | none => false
          | some aid => (!(aid == "")) && mapHasB (accumUnit m a) aid)
        = rest.countP (fun p =>
          match p.agent_id with
          | none => false
          | some aid => (!(aid == "")) && mapHasB m aid) := by
      apply List.countP_congr
      intro p _
      cases p.agent_id <;> simp [hhasEq]
    rw [hcong, sumCounts_accumUnit m a hnd, List.countP_cons]
    omega

theorem keys_calculateAgentScores (agents : List Agent) (appts : List Appartement) :
    (calculateAgentScores agents appts).map (fun p => p.1)
      = ((agents.foldl (fun m agent => mapSet m agent.id (zeroScore agent.id)) []).map
          (fun p => p.1)) := by
  simp only [calculateAgentScores]
  rw [keys_mapValue rescore, keys_foldl_accumUnit]

theorem hasB_initScores (agents : List Agent) (j : String) :
    mapHasB (agents.foldl (fun m agent => mapSet m agent.id (zeroScore agent.id)) []) j
      = (agents.map (fun a => a.id)).contains j := by
  by_cases hm : j ∈ agents.map (fun a => a.id)
  · have hget := mapGet_initScores agents [] j
    rw [if_pos hm] at hget
    have hsome : (mapGet
        (agents.foldl (fun m agent => mapSet m agent.id (zeroScore agent.id)) []) j).isSome
        = true := by rw [hget]; rfl
    rw [(mapGet_isSome_iff _ j).mp hsome]
    simp [hm]
  · have hget := mapGet_initScores agents [] j
    rw [if_neg hm] at hget
    have hnone : mapGet
        (agents.foldl (fun m agent => mapSet m agent.id (zeroScore agent.id)) []) j
        = none := by rw [hget]; rfl
    cases hh : mapHasB
        (agents.foldl (fun m agent => mapSet m agent.id (zeroScore agent.id)) []) j with
    | false => simp [hm]
    | true =>
      have := (mapGet_isSome_iff _ j).mpr hh
      rw [hnone] at this
      simp at this

theorem sumCounts_initScores (agents : List Agent) :
    sumCounts (agents.foldl (fun m agent => mapSet m agent.id (zeroScore agent.id)) [])
      = 0 :=
  sumCounts_eq_zero _ (values_initScores_nombre_zero agents [] (by simp))

theorem sumCounts_mapValue_rescore (m : List (String × DistributionScore)) :
    sumCounts (m.map (fun p => (p.1, rescore p.2))) = sumCounts m := by
  unfold sumCounts
  rw [List.map_map]
  apply congrArg
  apply List.map_congr_left
  intro p _
  simp [rescore]

/-- Claim C5, amended: `calculateAgentScores` has exactly one entry keyed
by each input worker's id, and the sum of `nombre_appartements` over all
summaries equals the number of units whose assigned-worker reference is
truthy (non-null and non-empty, matching the JavaScript `appt.agent_id &&`
check of the source) and is the id of some input worker. -/
theorem claim_c5_one_per_worker_and_count (agents : List Agent) (appts : List Appartement)
    (a : Agent) (ha : a ∈ agents) :
    ((calculateAgentScores agents appts).map (fun p => p.1)).count a.id = 1
    ∧ sumCounts (calculateAgentScores agents appts) = appts.countP (codeCountedB agents) := by
  have hnodup := keys_initScores_nodup agents [] (by simp)
  constructor
  · rw [keys_calculateAgentScores]
    apply List.count_eq_one_of_mem hnodup
    have hmem : a.id ∈ agents.map (fun x => x.id) := List.mem_map_of_mem _ ha
    have hget := mapGet_initScores agents [] a.id
    rw [if_pos hmem] at hget
    have hsome : (mapGet
        (agents.foldl (fun m agent => mapSet m agent.id (zeroScore agent.id)) []) a.id).isSome
        = true := by rw [hget]; rfl
    exact (mapHasB_iff _ a.id).mp ((mapGet_isSome_iff _ a.id).mp hsome)
  · simp only [calculateAgentScores]
    rw [sumCounts_mapValue_rescore, sumCounts_foldl_accumUnit appts _ hnodup,
      sumCounts_initScores, Nat.zero_add]
    apply List.countP_congr
    intro p _
    unfold codeCountedB
    cases p.agent_id <;> simp [hasB_initScores]

/-- Witness for the amended C5: roster `[a1]`, one unit assigned to `a1`;
the output keys contain `a1` exactly once and the counted total is `1`. -/
theorem claim_c5_one_per_worker_and_count_witness :
    ((calculateAgentScores [exAgent1] [exUnitAssigned]).map (fun p => p.1)).count "a1" = 1
    ∧ sumCounts (calculateAgentScores [exAgent1] [exUnitAssigned])
        = [exUnitAssigned].countP (codeCountedB [exAgent1]) := by
  simpa [exAgent1] using
    claim_c5_one_per_worker_and_count [exAgent1] [exUnitAssigned] exAgent1 (by simp)

/-- Counterexample to C5 as stated: a worker whose id is the empty string
and a unit whose assigned-worker reference is the empty string.  The
reference is non-null and equals the id of an input worker, so the claim
counts the unit, but the source drops it at the falsy `appt.agent_id &&`
check: the summaries count total is `0` while the claim's count is `1`. -/
theorem claim_c5_counterexample :
    sumCounts (calculateAgentScores [exAgentEmptyId] [exUnitEmptyRef]) = 0
    ∧ [exUnitEmptyRef].countP (specAssignedToKnown [exAgentEmptyId]) = 1 := by
  constructor
  · simp [calculateAgentScores, mapSet, mapHasB, accumUnit, sumCounts, zeroScore,
      rescore, exAgentEmptyId, exUnitEmptyRef]
  · simp [specAssignedToKnown, exAgentEmptyId, exUnitEmptyRef]

/-! ### Claims C9 and C10: route builder -/

theorem bestStep_fst_bound (dist : Point → Point → ℚ) (current : Option Point) :
    ∀ (l : List Appartement) (idx : ℕ) (st : ℕ × Option ℚ),
      (bestStep dist current l idx st).1 = st.1
      ∨ (bestStep dist current l idx st).1 < idx + l.length := by
  intro l
  induction l with
  | nil => intro idx st; left; rfl
  | cons a rest ih =>
    intro idx st
    simp only [bestStep]
    split
    · rcases ih (idx + 1) (idx, some (legDist dist current a)) with h | h
      · right
        rw [h]
        simp only [List.length_cons]
        omega
      · right
        simp only [List.length_cons] at h ⊢
        omega
    · rcases ih (idx + 1) st with h | h
      · left
        exact h
      · right
        simp only [List.length_cons] at h ⊢
        omega

theorem bestIndexFold_lt (dist : Point → Point → ℚ) (current : Option Point)
    (a : Appartement) (rest : List Appartement) :
    bestIndexFold dist current (a :: rest) < (a :: rest).length := by
  unfold bestIndexFold
  simp only [bestStep]
  rw [if_pos (show ltInf (legDist dist current a) (none : Option ℚ) = true from rfl)]
  rcases bestStep_fst_bound dist current rest (0 + 1) (0, some (legDist dist current a))
    with h | h
  · rw [h]
    simp [List.length_cons]
  · simp only [List.length_cons] at h ⊢
    omega

theorem routeLoop_spec (dist : Point → Point → ℚ) :
    ∀ (fuel : ℕ) (current : Option Point) (l : List Appartement) (ordre : ℕ),
      l.length ≤ fuel →
      (routeLoop dist fuel current l ordre).1.length = l.length
      ∧ (routeLoop dist fuel current l ordre).2
          = ((routeLoop dist fuel current l ordre).1.map
              (fun st => st.distanceDepuisPrecedent)).sum
      ∧ ∀ st ∈ (routeLoop dist fuel current l ordre).1, st.appartement ∈ l := by
  intro fuel
  induction fuel with
  | zero =>
    intro current l ordre h
    have : l = [] := List.length_eq_zero.mp (Nat.le_zero.mp h)
    subst this
    simp [routeLoop]
  | succ fuel ih =>
    intro current l ordre h
    cases l with
    | nil => simp [routeLoop]
    | cons a rest =>
      have hlt := bestIndexFold_lt dist current a rest
      have herase : ((a :: rest).eraseIdx (bestIndexFold dist current (a :: rest))).length
          = rest.length := by
        rw [List.length_eraseIdx, if_pos hlt]
        simp
      simp only [routeLoop]
      rw [dif_pos hlt]
      obtain ⟨h1, h2, h3⟩ := ih
        (some (apptPoint ((a :: rest).get ⟨bestIndexFold dist current (a :: rest), hlt⟩)))
        ((a :: rest).eraseIdx (bestIndexFold dist current (a :: rest))) (ordre + 1)
        (by
          rw [herase]
          have hh : rest.length + 1 ≤ fuel + 1 := by simpa using h
          omega)
      refine ⟨?_, ?_, ?_⟩
      · simp only [List.length_cons, h1, herase]
      · simp only [List.map_cons, List.sum_cons, h2]
      · intro st hst
        simp only [List.mem_cons] at hst
        cases hst with
        | inl hh =>
          rw [hh]
          exact List.get_mem _ _ _
        | inr hh =>
          exact (List.eraseIdx_sublist (a :: rest)
            (bestIndexFold dist current (a :: rest))).subset (h3 st hh)

/-- Claim C9: for every distance function, unit list and optional base,
the route of `buildAgentRoute` has `totalDistance` equal to the sum of the
per-leg distances of its steps, the number of steps equals the number of
input units carrying both coordinates, and every step's unit carries both
coordinates (so a unit lacking a coordinate never appears; an empty
filtered set yields zero legs and zero total distance). -/
theorem claim_c9_total_and_length (dist : Point → Point → ℚ) (agentId : String)
    (appts : List Appartement) (base : Option Point) :
    (buildAgentRoute dist agentId appts base).totalDistance
        = ((buildAgentRoute dist agentId appts base).etapes.map
            (fun st => st.distanceDepuisPrecedent)).sum
    ∧ (buildAgentRoute dist agentId appts base).etapes.length
        = (appts.filter hasCoords).length
    ∧ ((buildAgentRoute dist agentId appts base).etapes.all
        (fun st => hasCoords st.appartement)) = true := by
  by_cases hv : (appts.filter hasCoords).length = 0
  · simp [buildAgentRoute, hv]
  · obtain ⟨h1, h2, h3⟩ := routeLoop_spec dist (appts.filter hasCoords).length base
      (appts.filter hasCoords) 1 (le_refl _)
    simp only [buildAgentRoute, if_neg hv]
    refine ⟨h2, h1, ?_⟩
    rw [List.all_eq_true]
    intro st hst
    exact List.of_mem_filter (h3 st hst)

theorem bestStep_none_zero (dist : Point → Point → ℚ) :
    ∀ (l : List Appartement) (idx bi : ℕ),
      bestStep dist none l idx (bi, some 0) = (bi, some 0) := by
  intro l
  induction l with
  | nil => intro idx bi; rfl
  | cons a rest ih =>
    intro idx bi
    simp only [bestStep]
    have hfalse : ltInf (legDist dist none a) (some 0) = false := by
      norm_num [ltInf, legDist]
    rw [if_neg (by simp [hfalse])]
    exact ih (idx + 1) bi

theorem bestIndexFold_none (dist : Point → Point → ℚ) (a : Appartement)
    (rest : List Appartement) :
    bestIndexFold dist none (a :: rest) = 0 := by
  unfold bestIndexFold
  simp only [bestStep]
  rw [if_pos (show ltInf (legDist dist none a) (none : Option ℚ) = true from rfl)]
  have : legDist dist none a = 0 := rfl
  rw [this, bestStep_none_zero]

theorem routeLoop_none_start (dist : Point → Point → ℚ) (fuel : ℕ) (a : Appartement)
    (rest : List Appartement) (ordre : ℕ) :
    routeLoop dist (fuel + 1) none (a :: rest) ordre
      = (⟨a, ordre, 0⟩ :: (routeLoop dist fuel (some (apptPoint a)) rest (ordre + 1)).1,
         0 + (routeLoop dist fuel (some (apptPoint a)) rest (ordre + 1)).2) := by
  have hzero := bestIndexFold_none dist a rest
  simp [routeLoop, hzero, legDist]

/-- Claim C10: when `buildAgentRoute` is called without a base point and at
least one unit carries coordinates, the first step of the route is the
first coordinate-bearing unit in input order, its leg distance is exactly
`0` and contributes nothing to the total, and the nearest-neighbor
recursion for all later steps starts from that unit's coordinates. -/
theorem claim_c10_no_base_start (dist : Point → Point → ℚ) (agentId : String)
    (appts : List Appartement) (a : Appartement) (rest : List Appartement)
    (h : appts.filter hasCoords = a :: rest) :
    (buildAgentRoute dist agentId appts none).etapes
        = ⟨a, 1, 0⟩ :: (routeLoop dist rest.length (some (apptPoint a)) rest 2).1
    ∧ (buildAgentRoute dist agentId appts none).totalDistance
        = (routeLoop dist rest.length (some (apptPoint a)) rest 2).2 := by
  simp only [buildAgentRoute, h, List.length_cons]
  rw [if_neg (by simp)]
  rw [routeLoop_none_start]
  constructor
  · rfl
  · simp

/-- Witness for C10 at a single coordinate-bearing unit and a constant
distance function. -/
theorem claim_c10_no_base_start_witness :
    (buildAgentRoute unitDist "w" [exUnitGeo] none).etapes
        = ⟨exUnitGeo, 1, 0⟩
            :: (routeLoop unitDist 0 (some (apptPoint exUnitGeo)) [] 2).1
    ∧ (buildAgentRoute unitDist "w" [exUnitGeo] none).totalDistance
        = (routeLoop unitDist 0 (some (apptPoint exUnitGeo)) [] 2).2 := by
  have hf : [exUnitGeo].filter hasCoords = [exUnitGeo] := by
    simp [hasCoords, exUnitGeo]
  simpa using claim_c10_no_base_start unitDist "w" [exUnitGeo] exUnitGeo [] hf

/-! ### Claims C2, C6, C7: the batch distributor -/

theorem eligible_props (u : Appartement) (he : eligibleUnit u = true) :
    (u.agent_id = none ∨ u.agent_id = some "") ∧ u.statut ≠ "inactif" := by
  unfold eligibleUnit at he
  rw [Bool.and_eq_true] at he
  obtain ⟨h1, h2⟩ := he
  constructor
  · cases hu : u.agent_id with
    | none => left; rfl
    | some s =>
      right
      rw [hu] at h1
      simp [jsTruthyStr] at h1
      rw [h1]
  · intro hst
    rw [hst] at h2
    simp at h2

theorem autoFold_pairs (agents : List Agent) (scoreMap : ScoreMapRef)
    (Q : Appartement → Prop) :
    ∀ (l : List Appartement) (acc : List (Appartement × String) × Store),
      (∀ p ∈ acc.1, Q p.1) → (∀ u ∈ l, Q u) →
      ∀ p ∈ (l.foldl
        (fun (acc : List (Appartement × String) × Store) appartement =>
          match suggestOptimalAgent appartement agents (derefMap scoreMap acc.2) with
          | none => acc
          | some agentId =>
            let pairs := acc.1 ++ [(appartement, agentId)]
            match mapGet scoreMap agentId with
            | some r => (pairs, storeUpdate acc.2 r (simBump (acc.2 r) appartement))
            | none => (pairs, acc.2)) acc).1, Q p.1 := by
  intro l
  induction l with
  | nil => intro acc hacc _ p hp; exact hacc p hp
  | cons a rest ih =>
    intro acc hacc hl p hp
    rw [List.foldl_cons] at hp
    refine ih _ ?_ (fun u hu => hl u (List.mem_cons_of_mem a hu)) p hp
    intro q hq
    cases hs : suggestOptimalAgent a agents (derefMap scoreMap acc.2) with
    | none =>
      simp only [hs] at hq
      exact hacc q hq
    | some agentId =>
      simp only [hs] at hq
      cases hg : mapGet scoreMap agentId with
      | some r =>
        simp only [hg, List.mem_append, List.mem_singleton] at hq
        cases hq with
        | inl hin => exact hacc q hin
        | inr hin => rw [hin]; exact hl a (List.mem_cons_self a rest)
      | none =>
        simp only [hg, List.mem_append, List.mem_singleton] at hq
        cases hq with
        | inl hin => exact hacc q hin
        | inr hin => rw [hin]; exact hl a (List.mem_cons_self a rest)

/-- Claim C2, amended: every pairing produced by `handleAutoDistribute` is
for an input unit whose assigned-worker reference was falsy — null or the
empty string, matching the JavaScript `!appt.agent_id` check — and whose
status differed from `inactif`; no inactive or (non-falsy) already
assigned unit ever appears in the output pairings. -/
theorem claim_c2_amended (agents : List Agent) (appts : List Appartement)
    (scoreMap : ScoreMapRef) (st : Store) (pairs : List (Appartement × String))
    (h : (handleAutoDistribute agents appts scoreMap st).1
        = AutoDistributeResult.assigned pairs) :
    ∀ u w, (u, w) ∈ pairs →
      u ∈ appts ∧ (u.agent_id = none ∨ u.agent_id = some "") ∧ u.statut ≠ "inactif" := by
  simp only [handleAutoDistribute] at h
  by_cases h0 : agents.length = 0
  · rw [if_pos h0] at h
    simp at h
  · rw [if_neg h0] at h
    by_cases h1 : (appts.filter eligibleUnit).length = 0
    · rw [if_pos h1] at h
      simp at h
    · rw [if_neg h1] at h
      split at h
      · simp at h
      · intro u w huw
        simp only [AutoDistributeResult.assigned.injEq] at h
        rw [← h] at huw
        have hmem := autoFold_pairs agents scoreMap
          (fun u => u ∈ appts ∧ (u.agent_id = none ∨ u.agent_id = some "")
            ∧ u.statut ≠ "inactif")
          ((appts.filter eligibleUnit).mergeSort
            (fun a b => decide (calculateWorkloadScore b ≤ calculateWorkloadScore a)))
          ([], st) (by simp)
          (fun v hv => by
            rw [List.mem_mergeSort] at hv
            exact ⟨List.mem_of_mem_filter hv,
              eligible_props v (List.of_mem_filter hv)⟩)
          (u, w) huw
        exact ⟨hmem.1, hmem.2.1, hmem.2.2⟩

/-- Witness for the amended C2: roster `[a1]`, one available unassigned
unit; the single produced pairing satisfies all three properties. -/
theorem claim_c2_amended_witness :
    exUnit100 ∈ [exUnit100]
    ∧ (exUnit100.agent_id = none ∨ exUnit100.agent_id = some "")
    ∧ exUnit100.statut ≠ "inactif" :=
  claim_c2_amended [exAgent1] [exUnit100] [] exStore0 [(exUnit100, "a1")]
    (by
      simp [handleAutoDistribute, eligibleUnit, jsTruthyStr, exUnit100, exAgent1,
        suggestOptimalAgent, suggestStep, fleetAverage, mapGet, calculateWorkloadScore,
        ltInf, derefMap])
    exUnit100 "a1" (by simp)

/-- Counterexample to C2 as stated: a unit whose assigned-worker reference
is the empty string (non-null, but falsy in JavaScript) passes the
`!appt.agent_id` filter and is paired by the distributor, so a pairing for
a unit with a non-null reference does appear. -/
theorem claim_c2_counterexample :
    (handleAutoDistribute [exAgent1] [exUnitEmptyRef] [] exStore0).1
        = AutoDistributeResult.assigned [(exUnitEmptyRef, "a1")]
    ∧ exUnitEmptyRef.agent_id ≠ none := by
  constructor
  · simp [handleAutoDistribute, eligibleUnit, jsTruthyStr, exUnitEmptyRef, exAgent1,
      suggestOptimalAgent, suggestStep, fleetAverage, mapGet, calculateWorkloadScore,
      ltInf, derefMap]
  · simp [exUnitEmptyRef]

/-- Claim C6, amended: when the roster is non-empty and no unit is
eligible, `handleAutoDistribute` returns the distinct nothing-to-assign
state; the source checks the empty roster first, so this state is only
reachable with a non-empty roster. -/
theorem claim_c6_amended (agents : List Agent) (appts : List Appartement)
    (m : ScoreMapRef) (st : Store) (h1 : agents ≠ [])
    (h2 : appts.filter eligibleUnit = []) :
    (handleAutoDistribute agents appts m st).1
      = AutoDistributeResult.nothingToAssign := by
  simp [handleAutoDistribute, h1, h2]

/-- Witness for the amended C6: a one-worker roster and an empty unit
list. -/
theorem claim_c6_amended_witness :
    (handleAutoDistribute [exAgent1] [] [] exStore0).1
      = AutoDistributeResult.nothingToAssign :=
  claim_c6_amended [exAgent1] [] [] exStore0 (by simp) rfl

/-- Counterexample to C6 as stated: with an empty roster and an input with
zero eligible units, the source returns the empty-roster failure (it
checks the roster before filtering), not the nothing-to-assign state the
claim requires for every zero-eligible input. -/
theorem claim_c6_counterexample :
    (([] : List Appartement).filter eligibleUnit = [])
    ∧ (handleAutoDistribute ([] : List Agent) [] [] exStore0).1
        = AutoDistributeResult.emptyRoster
    ∧ (handleAutoDistribute ([] : List Agent) [] [] exStore0).1
        ≠ AutoDistributeResult.nothingToAssign := by
  refine ⟨rfl, ?_, ?_⟩
  · simp [handleAutoDistribute]
  · simp [handleAutoDistribute]

/-- Claim C7: evaluation of the aliasing bug at a concrete input.  The
caller map binds `a1` to heap cell `0`; after the distributor's simulation
pass, the observable contents of the caller map have changed (the
`new Map(scoreMap)` copy shares the summary objects, and the pass mutates
them in place), contradicting the claim that the caller's summaries are
unchanged. -/
theorem claim_c7_caller_map_mutated :
    derefMap exMapC7 ((handleAutoDistribute [exAgent1] [exUnit100] exMapC7 exStore0).2)
      ≠ derefMap exMapC7 exStore0 := by
  simp [handleAutoDistribute, eligibleUnit, jsTruthyStr, exUnit100, exAgent1,
    suggestOptimalAgent, suggestStep, fleetAverage, mapGet, calculateWorkloadScore,
    ltInf, derefMap, exMapC7, exStore0, storeUpdate, simBump, zeroScore]
